import Mathlib

/-!
Verification of the chain-reorganization monitor in `monad-testchain`.

Two source variants are embedded:
* namespace `Reorg`   — the monitor of `src/monitor_reorg.js` (anvil variant,
  `createMonitor`): per-height error handling in the forward-sync loop,
  rule-2 event name `PARENT_HASH_MISMATCH_DETECTED`.
* namespace `Mainnet` — the monitor of the Monad-mainnet variant
  (`createMonitor` with cold-start skip and hourly reports): `processBlock`
  swallows its own errors and returns a boolean, rule-2 event name
  `REORG_DETECTED`.

Blocks, hashes and state roots are opaque strings; heights are integers
(`lastProcessedHeight` starts at `-1`).  The JS `Map` cache is an insertion
ordered association list.  The RPC client is a record of arbitrary
`Except`-valued functions, so every client behavior (any returned block, any
thrown error, at any call site) is quantified over.
-/

/-- Substring test on character lists: does the haystack start with the needle? -/
def charsStartWith : List Char → List Char → Bool
  | [], _ => true
  | _ :: _, [] => false
  | a :: as, b :: bs => a == b && charsStartWith as bs

/-- Substring test on character lists: does the needle occur anywhere in the haystack? -/
def charsHasSub (needle : List Char) : List Char → Bool
  | [] => charsStartWith needle []
  | b :: bs => charsStartWith needle (b :: bs) || charsHasSub needle bs

/-- JS `hay.includes(needle)` on strings. -/
def strHasSub (hay needle : String) : Bool :=
  charsHasSub needle.toList hay.toList

/-- Integer range `[lo, lo+1, …, hi]` (empty when `hi < lo`), the heights a
JS `for (let h = lo; h <= hi; h++)` loop iterates over. -/
def intRangeAux (lo : Int) : Nat → List Int
  | 0 => []
  | n + 1 => lo :: intRangeAux (lo + 1) n

def intRange (lo hi : Int) : List Int :=
  intRangeAux lo (hi + 1 - lo).toNat

/-- The projection of an RPC block used by the monitor: `block.number`,
`block.hash`, `block.parentHash`, `block.stateRoot` and the hashes of
`block.transactions` (the code computes `block.transactions.map(t => t.hash)`). -/
structure Block where
  number : Int
  hash : String
  parentHash : String
  stateRoot : String
  txHashes : List String
deriving Repr, DecidableEq

/-- One cached fingerprint, as stored by `blockCache.set(height, {...})`. -/
structure CacheEntry where
  hash : String
  parentHash : String
  stateRoot : String
  transactions : List String
deriving Repr, DecidableEq

/-- The injected RPC capability.  Each field may return any block or any error
string; this quantifies over every client behavior at every call site. -/
structure Client where
  getChainId : Except String Int
  getBlockLatest : Except String Block
  getBlockByNumber : Int → Except String Block

/-- Hourly counters of the mainnet variant (`hourlyStats`). -/
structure HourlyStats where
  startTime : Int
  blocksProcessed : Int
  reorgsDetected : Int
  blocksReplaced : Int
  chainRewinds : Int
deriving Repr, DecidableEq

/-- Emitted events.  Each constructor corresponds to one `logJson(type, data)`
call site; `eventType` below gives the literal `event_type` string passed there. -/
inductive Event where
  | blockReceived (height : Int) (hash parentHash stateRoot : String)
      (txCount : Nat) (transactions : List String)
  | blockReplaced (height : Int) (oldHash newHash oldStateRoot newStateRoot : String)
      (dropped added : List String) (severity : String)
  | parentHashMismatchDetected (atHeight : Int) (expectedParent actualParent severity : String)
  | reorgDetected (atHeight : Int) (expectedParent actualParent severity : String)
  | chainRewind (fromHeight toHeight : Int) (severity : String)
  | chainIdChanged (oldId newId : Int) (severity : String)
  | genesisChanged (oldHash newHash severity : String)
  | monitorSkipHistory (skippedToHeight : Int)
  | hourlyReport (durationMs : Int) (stats : HourlyStats) (threat : String)
      (details : List String)
  | rpcError (message : Option String) (errMsg : String)
deriving Repr, DecidableEq

instance {ε α : Type} [DecidableEq ε] [DecidableEq α] : DecidableEq (Except ε α) :=
  fun x y =>
    match x, y with
    | Except.ok a, Except.ok b =>
      if h : a = b then Decidable.isTrue (congrArg Except.ok h)
      else Decidable.isFalse (fun hc => h (Except.ok.inj hc))
    | Except.error a, Except.error b =>
      if h : a = b then Decidable.isTrue (congrArg Except.error h)
      else Decidable.isFalse (fun hc => h (Except.error.inj hc))
    | Except.ok _, Except.error _ => Decidable.isFalse (fun hc => Except.noConfusion hc)
    | Except.error _, Except.ok _ => Decidable.isFalse (fun hc => Except.noConfusion hc)

/-- The `event_type` string of each emitted record. -/
def eventType : Event → String
  | .blockReceived .. => "BLOCK_RECEIVED"
  | .blockReplaced .. => "BLOCK_REPLACED"
  | .parentHashMismatchDetected .. => "PARENT_HASH_MISMATCH_DETECTED"
  | .reorgDetected .. => "REORG_DETECTED"
  | .chainRewind .. => "CHAIN_REWIND"
  | .chainIdChanged .. => "CHAIN_ID_CHANGED"
  | .genesisChanged .. => "GENESIS_CHANGED"
  | .monitorSkipHistory _ => "MONITOR_SKIP_HISTORY"
  | .hourlyReport .. => "HOURLY_REPORT"
  | .rpcError .. => "RPC_ERROR"

/-- `blockCache.get(h)` on the insertion-ordered association list. -/
def cacheGet (c : List (Int × CacheEntry)) (h : Int) : Option CacheEntry :=
  match c.find? (fun p => p.1 == h) with
  | some p => some p.2
  | none => none

/-- `blockCache.has(h)`. -/
def cacheHas (c : List (Int × CacheEntry)) (h : Int) : Bool :=
  (cacheGet c h).isSome

/-- `blockCache.set(h, e)`: JS `Map.set` replaces in place when the key exists
and appends otherwise. -/
def cacheSet (c : List (Int × CacheEntry)) (h : Int) (e : CacheEntry) :
    List (Int × CacheEntry) :=
  if cacheHas c h then c.map (fun p => if p.1 == h then (h, e) else p)
  else c ++ [(h, e)]

/-- Construction-time options of `createMonitor` that the tick consults. -/
structure Config where
  recheckDepth : Int
  cacheDepth : Int
  chainMetadataPollMs : Int
deriving Repr, DecidableEq

namespace Reorg

/-- Monitor state of `src/monitor_reorg.js` (`createMonitor` closure variables). -/
structure MonitorState where
  blockCache : List (Int × CacheEntry)
  maxObservedHeight : Int
  lastProcessedHeight : Int
  lastChainId : Option Int
  lastGenesisHash : Option String
  lastMetadataCheckMs : Int
deriving Repr, DecidableEq

/-- State at monitor construction. -/
def initState : MonitorState :=
  { blockCache := []
    maxObservedHeight := 0
    lastProcessedHeight := -1
    lastChainId := none
    lastGenesisHash := none
    lastMetadataCheckMs := 0 }

/-- `processBlock(blockNumber)` of `src/monitor_reorg.js`: fetch the block,
emit `BLOCK_REPLACED` / `PARENT_HASH_MISMATCH_DETECTED` / `BLOCK_RECEIVED` in
that order, update the cache and the max-observed watermark.  The fetch is the
only fallible step, and it precedes every mutation, so an error mutates no
state. -/
def processBlock (client : Client) (s : MonitorState) (blockNumber : Int) :
    Except String (MonitorState × List Event) :=
  match client.getBlockByNumber blockNumber with
  | Except.error e => Except.error e
  | Except.ok block =>
    let height := block.number
    let hash := block.hash
    let parentHash := block.parentHash
    let txHashes := block.txHashes
    let evs1 :=
      match cacheGet s.blockCache height with
      | some cached =>
        if cached.hash ≠ hash then
          [Event.blockReplaced height cached.hash hash cached.stateRoot block.stateRoot
            (cached.transactions.filter (fun tx => ! txHashes.contains tx))
            (txHashes.filter (fun tx => ! cached.transactions.contains tx))
            "CRITICAL"]
        else []
      | none => []
    let evs2 :=
      match cacheGet s.blockCache (height - 1) with
      | some parent =>
        if parentHash ≠ parent.hash then
          [Event.parentHashMismatchDetected height parent.hash parentHash "CRITICAL"]
        else []
      | none => []
    let changed : Bool :=
      match cacheGet s.blockCache height with
      | some cached => cached.hash != hash
      | none => true
    let cacheAndEvs3 :=
      if changed then
        (cacheSet s.blockCache height ⟨hash, parentHash, block.stateRoot, txHashes⟩,
         [Event.blockReceived height hash parentHash block.stateRoot
            txHashes.length txHashes])
      else (s.blockCache, ([] : List Event))
    let maxObs := if s.maxObservedHeight < height then height else s.maxObservedHeight
    Except.ok
      ({ s with blockCache := cacheAndEvs3.1, maxObservedHeight := maxObs },
       evs1 ++ evs2 ++ cacheAndEvs3.2)

/-- The periodic chain-metadata probe at the top of `tick`.  The third
component is the exception escaping the probe, if any; `lastMetadataCheckMs`
is updated before the RPC calls are issued. -/
def metadataPhase (cfg : Config) (client : Client) (nowMs : Int) (s : MonitorState) :
    MonitorState × List Event × Option String :=
  if cfg.chainMetadataPollMs ≤ nowMs - s.lastMetadataCheckMs then
    let s1 := { s with lastMetadataCheckMs := nowMs }
    match client.getChainId, client.getBlockByNumber 0 with
    | Except.ok chainId, Except.ok genesis =>
      let evA :=
        match s1.lastChainId with
        | some old => if chainId ≠ old then [Event.chainIdChanged old chainId "CRITICAL"] else []
        | none => []
      let s2 := { s1 with lastChainId := some chainId }
      let evB :=
        match s2.lastGenesisHash with
        | some old =>
          if genesis.hash ≠ old then [Event.genesisChanged old genesis.hash "CRITICAL"] else []
        | none => []
      ({ s2 with lastGenesisHash := some genesis.hash }, evA ++ evB, none)
    | Except.error e, _ => (s1, [], some e)
    | _, Except.error e => (s1, [], some e)
  else (s, [], none)

/-- The rewind check of `tick`: on `latestHeight < maxObservedHeight` emit
`CHAIN_REWIND` and reset both watermarks to the new tip.  The cache is not
touched. -/
def rewindPhase (latestHeight : Int) (s : MonitorState) : MonitorState × List Event :=
  if latestHeight < s.maxObservedHeight then
    ({ s with maxObservedHeight := latestHeight, lastProcessedHeight := latestHeight },
     [Event.chainRewind s.maxObservedHeight latestHeight "CRITICAL"])
  else (s, [])

/-- The forward-sync loop body: negative heights are skipped; on success
`lastProcessedHeight` advances to the processed height; on failure one
`RPC_ERROR` naming the height is emitted and the loop breaks. -/
def forwardSyncGo (client : Client) : List Int → MonitorState → MonitorState × List Event
  | [], s => (s, [])
  | h :: rest, s =>
    if h < 0 then forwardSyncGo client rest s
    else
      match processBlock client s h with
      | Except.ok (s', pevs) =>
        let r := forwardSyncGo client rest { s' with lastProcessedHeight := h }
        (r.1, pevs ++ r.2)
      | Except.error e =>
        (s, [Event.rpcError (some ("Failed to process block " ++ toString h)) e])

/-- The deep-recheck loop body: each height's error is caught individually and
the loop continues. -/
def recheckGo (client : Client) : List Int → MonitorState → MonitorState × List Event
  | [], s => (s, [])
  | h :: rest, s =>
    match processBlock client s h with
    | Except.ok (s', pevs) =>
      let r := recheckGo client rest s'
      (r.1, pevs ++ r.2)
    | Except.error e =>
      let r := recheckGo client rest s
      (r.1, Event.rpcError (some ("Recheck failed for " ++ toString h)) e :: r.2)

/-- Body of `tick` before the outer `try`/`catch`: identity probe, tip fetch,
rewind check, forward sync, deep recheck, prune.  The third component is the
exception reaching the outer guard, if any (only the identity probe and the
tip fetch can raise; per-height errors are handled inside the loops). -/
def tickBody (cfg : Config) (client : Client) (nowMs : Int) (s0 : MonitorState) :
    MonitorState × List Event × Option String :=
  match metadataPhase cfg client nowMs s0 with
  | (s1, evs1, some e) => (s1, evs1, some e)
  | (s1, evs1, none) =>
    match client.getBlockLatest with
    | Except.error e => (s1, evs1, some e)
    | Except.ok latestBlock =>
      let latestHeight := latestBlock.number
      let r2 := rewindPhase latestHeight s1
      let r3 := forwardSyncGo client (intRange (r2.1.lastProcessedHeight + 1) latestHeight) r2.1
      let r4 := recheckGo client
        (intRange (max 0 (latestHeight - cfg.recheckDepth + 1)) r3.1.lastProcessedHeight) r3.1
      let minKeep := max 0 (latestHeight - cfg.cacheDepth + 1)
      let s5 := { r4.1 with blockCache := r4.1.blockCache.filter (fun p => minKeep ≤ p.1) }
      (s5, evs1 ++ r2.2 ++ r3.2 ++ r4.2, none)

/-- `tick()` with its outer error guard: an escaping error whose message
contains `Block not found` is swallowed silently; any other escaping error
emits `RPC_ERROR { error }`.  `tick` always returns normally. -/
def tick (cfg : Config) (client : Client) (nowMs : Int) (s : MonitorState) :
    MonitorState × List Event :=
  match tickBody cfg client nowMs s with
  | (s', evs, none) => (s', evs)
  | (s', evs, some e) =>
    (s', evs ++ (if strHasSub e "Block not found" then [] else [Event.rpcError none e]))

end Reorg

namespace Mainnet

/-- Monitor state of the Monad-mainnet variant (`createMonitor` closure
variables plus `hourlyStats`). -/
structure MonState where
  blockCache : List (Int × CacheEntry)
  maxObservedHeight : Int
  lastProcessedHeight : Int
  lastChainId : Option Int
  lastGenesisHash : Option String
  lastMetadataCheckMs : Int
  hourlyStats : HourlyStats
deriving Repr, DecidableEq

/-- `resetHourlyStats()`: zero counters, `startTime` from the injected clock. -/
def resetHourlyStats (nowMs : Int) : HourlyStats :=
  { startTime := nowMs
    blocksProcessed := 0
    reorgsDetected := 0
    blocksReplaced := 0
    chainRewinds := 0 }

/-- State at monitor construction (clock read once for `hourlyStats.startTime`). -/
def initState (nowMs : Int) : MonState :=
  { blockCache := []
    maxObservedHeight := 0
    lastProcessedHeight := -1
    lastChainId := none
    lastGenesisHash := none
    lastMetadataCheckMs := 0
    hourlyStats := resetHourlyStats nowMs }

/-- `processBlock(blockNumber)` of the mainnet variant: the whole body is in a
`try`/`catch` that returns `false`, so a fetch error is swallowed and mutates
nothing.  Rule 2 is emitted under the name `REORG_DETECTED` here.  Counters
are bumped at the same points the events are emitted. -/
def processBlock (client : Client) (s : MonState) (blockNumber : Int) :
    MonState × List Event × Bool :=
  match client.getBlockByNumber blockNumber with
  | Except.error _ => (s, [], false)
  | Except.ok block =>
    let height := block.number
    let hash := block.hash
    let parentHash := block.parentHash
    let txHashes := block.txHashes
    let s0 := { s with hourlyStats :=
      { s.hourlyStats with blocksProcessed := s.hourlyStats.blocksProcessed + 1 } }
    let r1 : MonState × List Event :=
      match cacheGet s0.blockCache height with
      | some cached =>
        if cached.hash ≠ hash then
          ({ s0 with hourlyStats :=
              { s0.hourlyStats with blocksReplaced := s0.hourlyStats.blocksReplaced + 1 } },
           [Event.blockReplaced height cached.hash hash cached.stateRoot block.stateRoot
             (cached.transactions.filter (fun tx => ! txHashes.contains tx))
             (txHashes.filter (fun tx => ! cached.transactions.contains tx))
             "CRITICAL"])
        else (s0, [])
      | none => (s0, [])
    let r2 : MonState × List Event :=
      match cacheGet r1.1.blockCache (height - 1) with
      | some parent =>
        if parentHash ≠ parent.hash then
          ({ r1.1 with hourlyStats :=
              { r1.1.hourlyStats with reorgsDetected := r1.1.hourlyStats.reorgsDetected + 1 } },
           [Event.reorgDetected height parent.hash parentHash "CRITICAL"])
        else (r1.1, [])
      | none => (r1.1, [])
    let changed : Bool :=
      match cacheGet r2.1.blockCache height with
      | some cached => cached.hash != hash
      | none => true
    let r3 : List (Int × CacheEntry) × List Event :=
      if changed then
        (cacheSet r2.1.blockCache height ⟨hash, parentHash, block.stateRoot, txHashes⟩,
         [Event.blockReceived height hash parentHash block.stateRoot
            txHashes.length txHashes])
      else (r2.1.blockCache, [])
    let maxObs := if r2.1.maxObservedHeight < height then height else r2.1.maxObservedHeight
    ({ r2.1 with blockCache := r3.1, maxObservedHeight := maxObs },
     r1.2 ++ r2.2 ++ r3.2, true)

/-- The periodic chain-metadata probe of the mainnet `tick`. -/
def metadataPhase (cfg : Config) (client : Client) (nowMs : Int) (s : MonState) :
    MonState × List Event × Option String :=
  if cfg.chainMetadataPollMs ≤ nowMs - s.lastMetadataCheckMs then
    let s1 := { s with lastMetadataCheckMs := nowMs }
    match client.getChainId, client.getBlockByNumber 0 with
    | Except.ok chainId, Except.ok genesis =>
      let evA :=
        match s1.lastChainId with
        | some old => if chainId ≠ old then [Event.chainIdChanged old chainId "CRITICAL"] else []
        | none => []
      let s2 := { s1 with lastChainId := some chainId }
      let evB :=
        match s2.lastGenesisHash with
        | some old =>
          if genesis.hash ≠ old then [Event.genesisChanged old genesis.hash "CRITICAL"] else []
        | none => []
      ({ s2 with lastGenesisHash := some genesis.hash }, evA ++ evB, none)
    | Except.error e, _ => (s1, [], some e)
    | _, Except.error e => (s1, [], some e)
  else (s, [], none)

/-- The cold-start phase: on the first tick (`lastProcessedHeight == -1`) with
`latestHeight > 0`, emit `MONITOR_SKIP_HISTORY` and jump `lastProcessedHeight`
to `latestHeight − 1` so history is not back-filled. -/
def coldStartPhase (latestHeight : Int) (s : MonState) : MonState × List Event :=
  if s.lastProcessedHeight = -1 ∧ 0 < latestHeight then
    ({ s with lastProcessedHeight := latestHeight - 1 },
     [Event.monitorSkipHistory latestHeight])
  else (s, [])

/-- The rewind check of the mainnet `tick` (also counts `chainRewinds`). -/
def rewindPhase (latestHeight : Int) (s : MonState) : MonState × List Event :=
  if latestHeight < s.maxObservedHeight then
    let stats' := { s.hourlyStats with chainRewinds := s.hourlyStats.chainRewinds + 1 }
    ({ s with
        maxObservedHeight := latestHeight
        lastProcessedHeight := latestHeight
        hourlyStats := stats' },
     [Event.chainRewind s.maxObservedHeight latestHeight "CRITICAL"])
  else (s, [])

/-- The mainnet forward-sync loop: negative heights are skipped and
`processBlock`'s boolean result is ignored (it swallows its own errors). -/
def syncGo (client : Client) : List Int → MonState → MonState × List Event
  | [], s => (s, [])
  | h :: rest, s =>
    if h < 0 then syncGo client rest s
    else
      let p := processBlock client s h
      let r := syncGo client rest p.1
      (r.1, p.2.1 ++ r.2)

/-- The mainnet deep-recheck loop (no negative-height guard; the range starts
at `max 0 …`). -/
def recheckGo (client : Client) : List Int → MonState → MonState × List Event
  | [], s => (s, [])
  | h :: rest, s =>
    let p := processBlock client s h
    let r := recheckGo client rest p.1
    (r.1, p.2.1 ++ r.2)

/-- Body of the mainnet `tick` before the outer `try`/`catch`: identity probe,
tip fetch, cold start, rewind check, forward sync (advancing
`lastProcessedHeight` to the tip after the loop), deep recheck up to the tip,
prune. -/
def tickBody (cfg : Config) (client : Client) (nowMs : Int) (s0 : MonState) :
    MonState × List Event × Option String :=
  match metadataPhase cfg client nowMs s0 with
  | (s1, evs1, some e) => (s1, evs1, some e)
  | (s1, evs1, none) =>
    match client.getBlockLatest with
    | Except.error e => (s1, evs1, some e)
    | Except.ok latestBlock =>
      let latestHeight := latestBlock.number
      let r2 := coldStartPhase latestHeight s1
      let r3 := rewindPhase latestHeight r2.1
      let r4 :=
        if r3.1.lastProcessedHeight < latestHeight then
          let r := syncGo client (intRange (r3.1.lastProcessedHeight + 1) latestHeight) r3.1
          ({ r.1 with lastProcessedHeight := latestHeight }, r.2)
        else (r3.1, [])
      let r5 := recheckGo client
        (intRange (max 0 (latestHeight - cfg.recheckDepth + 1)) latestHeight) r4.1
      let minKeep := max 0 (latestHeight - cfg.cacheDepth + 1)
      let s6 := { r5.1 with blockCache := r5.1.blockCache.filter (fun p => minKeep ≤ p.1) }
      (s6, evs1 ++ r2.2 ++ r3.2 ++ r4.2 ++ r5.2, none)

/-- The mainnet `tick()` with its outer error guard. -/
def tick (cfg : Config) (client : Client) (nowMs : Int) (s : MonState) :
    MonState × List Event :=
  match tickBody cfg client nowMs s with
  | (s', evs, none) => (s', evs)
  | (s', evs, some e) =>
    (s', evs ++ (if strHasSub e "Block not found" then [] else [Event.rpcError none e]))

/-- `generateHourlyReport()`: derive the threat assessment and reasons from
the counters (first match wins), emit `HOURLY_REPORT`, dispatch to the alert
sink iff the assessment is not `LOW`, then reset the counters.  `now1` is the
clock value read for the duration, `now2` the one read by
`resetHourlyStats`. -/
def generateHourlyReport (now1 now2 : Int) (stats : HourlyStats) :
    Event × Bool × HourlyStats :=
  let tr : String × List String :=
    if 0 < stats.chainRewinds then
      ("CRITICAL", ["Chain rewind detected"])
    else if 5 < stats.reorgsDetected ∨ 10 < stats.blocksReplaced then
      ("HIGH", ["High frequency of reorgs/replacements"])
    else if 0 < stats.reorgsDetected ∨ 0 < stats.blocksReplaced then
      ("MEDIUM", ["Minor reorg activity observed"])
    else ("LOW", [])
  (Event.hourlyReport (now1 - stats.startTime) stats tr.1 tr.2,
   tr.1 != "LOW",
   resetHourlyStats now2)

/-- The threat assessment exactly as the specification's table states it
(first match wins): CRITICAL on any chain rewind, else HIGH on more than 5
reorgs or more than 10 replacements, else MEDIUM on any reorg or replacement,
else LOW.  Stated separately from `generateHourlyReport` to compare the code
against the specification's wording. -/
def threatAssessmentSpec (stats : HourlyStats) : String :=
  if 0 < stats.chainRewinds then "CRITICAL"
  else if 5 < stats.reorgsDetected ∨ 10 < stats.blocksReplaced then "HIGH"
  else if 0 < stats.reorgsDetected ∨ 0 < stats.blocksReplaced then "MEDIUM"
  else "LOW"

/-- The `threat_details` reasons attached by `generateHourlyReport`, one per
matched branch. -/
def threatDetails (stats : HourlyStats) : List String :=
  if 0 < stats.chainRewinds then ["Chain rewind detected"]
  else if 5 < stats.reorgsDetected ∨ 10 < stats.blocksReplaced then
    ["High frequency of reorgs/replacements"]
  else if 0 < stats.reorgsDetected ∨ 0 < stats.blocksReplaced then
    ["Minor reorg activity observed"]
  else []

end Mainnet

/-! ### Concrete instances used by witnesses and counterexamples -/

/-- Default-like configuration (RECHECK_DEPTH 16, CACHE_DEPTH 2048, metadata
poll 10000 ms). -/
def cfgStd : Config := ⟨16, 2048, 10000⟩

/-- A small configuration (RECHECK_DEPTH 1, CACHE_DEPTH 2) exhibiting the
prune behavior. -/
def cfgTiny : Config := ⟨1, 2, 10000⟩

def chainB0 : Block := ⟨0, "a0", "a0", "r0", []⟩
def chainB1 : Block := ⟨1, "a1", "a0", "r1", []⟩
def chainB2 : Block := ⟨2, "a2", "a1", "r2", []⟩
def chainB3 : Block := ⟨3, "a3", "a2", "r3", []⟩

/-- A competing block at height 1 (different hash, same parent). -/
def forkB1 : Block := ⟨1, "c1", "a0", "r1x", []⟩

/-- A healthy client serving the linear chain 0–3 with tip 3. -/
def clChain : Client :=
  { getChainId := Except.ok 1
    getBlockLatest := Except.ok chainB3
    getBlockByNumber := fun n =>
      if n = 0 then Except.ok chainB0 else if n = 1 then Except.ok chainB1
      else if n = 2 then Except.ok chainB2 else if n = 3 then Except.ok chainB3
      else Except.error "Block not found" }

/-- A client after a rewind to height 1 on a replaced branch. -/
def clRewound : Client :=
  { getChainId := Except.ok 1
    getBlockLatest := Except.ok forkB1
    getBlockByNumber := fun n =>
      if n = 1 then Except.ok forkB1 else Except.error "Block not found" }

/-- A client whose every per-height fetch raises `Block not found` while the
tip fetch succeeds at height 0. -/
def clBnf : Client :=
  { getChainId := Except.ok 1
    getBlockLatest := Except.ok chainB0
    getBlockByNumber := fun _ => Except.error "Block not found" }

/-- A client whose tip fetch itself raises `Block not found`. -/
def clLatBnf : Client :=
  { getChainId := Except.ok 1
    getBlockLatest := Except.error "Block not found"
    getBlockByNumber := fun _ => Except.error "Block not found" }

/-- A client whose tip fetch raises a generic error. -/
def clBoom : Client :=
  { getChainId := Except.ok 1
    getBlockLatest := Except.error "boom"
    getBlockByNumber := fun _ => Except.error "boom" }

/-- A client serving heights 0 and 1 but failing at height 2 with a generic
error, with tip 3. -/
def clBrk : Client :=
  { getChainId := Except.ok 1
    getBlockLatest := Except.ok chainB3
    getBlockByNumber := fun n =>
      if n = 0 then Except.ok chainB0 else if n = 1 then Except.ok chainB1
      else Except.error "boom" }

/-- Old fingerprint at height 2 for the `BLOCK_REPLACED` witness. -/
def fpOldW : CacheEntry := ⟨"old", "p1", "r2", ["t1", "t2"]⟩

/-- Replacement block at height 2 (shares `t2`, drops `t1`, adds `t3`). -/
def blkNewW : Block := ⟨2, "new", "p1", "r2n", ["t2", "t3"]⟩

def clReplaced : Client :=
  { getChainId := Except.ok 1
    getBlockLatest := Except.ok blkNewW
    getBlockByNumber := fun n =>
      if n = 2 then Except.ok blkNewW else Except.error "Block not found" }

def sReplaced : Reorg.MonitorState :=
  { Reorg.initState with blockCache := [(2, fpOldW)] }

/-- Cached fingerprint at height 0 whose hash `p` differs from the parent
hash `q` of the fetched block at height 1. -/
def fpParentW : CacheEntry := ⟨"p", "g", "r0", []⟩

def blkMismatch : Block := ⟨1, "b1", "q", "r1", []⟩

def clMismatch : Client :=
  { getChainId := Except.ok 1
    getBlockLatest := Except.ok blkMismatch
    getBlockByNumber := fun n =>
      if n = 1 then Except.ok blkMismatch else Except.error "Block not found" }

def sMismatch : Reorg.MonitorState :=
  { Reorg.initState with blockCache := [(0, fpParentW)] }

/-- State with a raised watermark, for the rewind witness. -/
def sHighWater : Reorg.MonitorState :=
  { Reorg.initState with maxObservedHeight := 5 }

/-- State caching heights 0 and 1 of the linear chain unchanged, for the
idempotency witness. -/
def sCachedChain : Reorg.MonitorState :=
  { Reorg.initState with
      blockCache := [(0, ⟨"a0", "a0", "r0", []⟩), (1, ⟨"a1", "a0", "r1", []⟩)] }

/-! ### General lemmas -/

theorem mem_intRangeAux {h lo : Int} {n : Nat} :
    h ∈ intRangeAux lo n ↔ lo ≤ h ∧ h < lo + n := by
  induction n generalizing lo with
  | zero => simp [intRangeAux]
  | succ n ih =>
    simp only [intRangeAux, List.mem_cons, ih]
    constructor
    · rintro (rfl | ⟨h1, h2⟩) <;> omega
    · rintro ⟨h1, h2⟩
      rcases eq_or_lt_of_le h1 with rfl | hlt
      · exact Or.inl rfl
      · exact Or.inr ⟨by omega, by omega⟩

theorem mem_intRange {h lo hi : Int} : h ∈ intRange lo hi ↔ lo ≤ h ∧ h ≤ hi := by
  simp only [intRange, mem_intRangeAux]
  omega

theorem chain_intRangeAux {lo : Int} {n : Nat} :
    List.Chain' (fun a b => a < b) (intRangeAux lo n) := by
  induction n generalizing lo with
  | zero => simp [intRangeAux]
  | succ n ih =>
    cases n with
    | zero => simp [intRangeAux]
    | succ m =>
      refine List.Chain'.cons ?_ ih
      simp [intRangeAux]

/-- The heights iterated by a `for (h = lo; h <= hi; h++)` loop are strictly
increasing. -/
theorem chain_intRange {lo hi : Int} : List.Chain' (fun a b => a < b) (intRange lo hi) :=
  chain_intRangeAux

theorem contains_eq_mem {a : String} {l : List String} : l.contains a = true ↔ a ∈ l := by
  simp

namespace Reorg

/-- `processBlock` raises exactly the fetch errors of the client. -/
theorem processBlock_error {client : Client} {s : MonitorState} {h : Int} {e : String} :
    processBlock client s h = Except.error e ↔ client.getBlockByNumber h = Except.error e := by
  unfold processBlock
  cases client.getBlockByNumber h <;> simp

/-- C1: if the cache holds a fingerprint at `h` and the freshly fetched block
at `h` has a different hash, `processBlock` emits `BLOCK_REPLACED` (first,
before any other event of the call) with the old and new hashes and state
roots, severity CRITICAL, and `tx_diff` where `dropped` keeps exactly the old
transaction hashes not occurring among the new ones (in the old order, with
duplicates preserved, membership decided by hash identity) and `added` keeps
exactly the new transaction hashes not occurring among the old ones (in the
new order, with duplicates preserved). -/
theorem processBlock_blockReplaced
    (client : Client) (s : MonitorState) (h : Int) (block : Block) (fpOld : CacheEntry)
    (hfetch : client.getBlockByNumber h = Except.ok block)
    (hnum : block.number = h)
    (hcached : cacheGet s.blockCache h = some fpOld)
    (hne : fpOld.hash ≠ block.hash) :
    ∃ s' rest,
      processBlock client s h = Except.ok (s',
        Event.blockReplaced h fpOld.hash block.hash fpOld.stateRoot block.stateRoot
          (fpOld.transactions.filter (fun tx => ! block.txHashes.contains tx))
          (block.txHashes.filter (fun tx => ! fpOld.transactions.contains tx))
          "CRITICAL" :: rest)
      ∧ (fpOld.transactions.filter (fun tx => ! block.txHashes.contains tx)).Sublist
          fpOld.transactions
      ∧ (∀ x, x ∈ fpOld.transactions.filter (fun tx => ! block.txHashes.contains tx) ↔
          x ∈ fpOld.transactions ∧ x ∉ block.txHashes)
      ∧ (∀ x, (fpOld.transactions.filter (fun tx => ! block.txHashes.contains tx)).count x =
          if x ∈ block.txHashes then 0 else fpOld.transactions.count x)
      ∧ (block.txHashes.filter (fun tx => ! fpOld.transactions.contains tx)).Sublist
          block.txHashes
      ∧ (∀ x, x ∈ block.txHashes.filter (fun tx => ! fpOld.transactions.contains tx) ↔
          x ∈ block.txHashes ∧ x ∉ fpOld.transactions)
      ∧ (∀ x, (block.txHashes.filter (fun tx => ! fpOld.transactions.contains tx)).count x =
          if x ∈ fpOld.transactions then 0 else block.txHashes.count x) := by
  subst hnum
  have hdiff : ∀ (old new : List String) (x : String),
      (old.filter (fun tx => ! new.contains tx)).count x =
        if x ∈ new then 0 else old.count x := by
    intro old new x
    by_cases hx : x ∈ new
    · simp only [if_pos hx]
      refine List.count_eq_zero.mpr ?_
      simp [List.mem_filter, hx]
    · simp only [if_neg hx]
      refine List.count_filter ?_
      simp [hx]
  have hmain : ∃ s' rest,
      processBlock client s block.number = Except.ok (s',
        Event.blockReplaced block.number fpOld.hash block.hash fpOld.stateRoot block.stateRoot
          (fpOld.transactions.filter (fun tx => ! block.txHashes.contains tx))
          (block.txHashes.filter (fun tx => ! fpOld.transactions.contains tx))
          "CRITICAL" :: rest) := by
    rw [processBlock, hfetch]
    simp only [hcached, hne, ne_eq, not_false_eq_true, if_true, if_pos, bne_iff_ne,
      List.singleton_append, List.cons_append]
    exact ⟨_, _, rfl⟩
  obtain ⟨s', rest, hres⟩ := hmain
  exact ⟨s', rest, hres, List.filter_sublist _,
    fun x => by simp [List.mem_filter], hdiff _ _, List.filter_sublist _,
    fun x => by simp [List.mem_filter], hdiff _ _⟩

/-- C8: `processBlock` on an unchanged block — fetched hash equal to the
cached hash at the same height, and the cached entry at `h−1` (if present)
matching the block's parent hash — emits no event at all and leaves the block
cache exactly as it was. -/
theorem processBlock_idempotent
    (client : Client) (s : MonitorState) (h : Int) (block : Block) (cached : CacheEntry)
    (hfetch : client.getBlockByNumber h = Except.ok block)
    (hnum : block.number = h)
    (hcached : cacheGet s.blockCache h = some cached)
    (hhash : cached.hash = block.hash)
    (hparent : ∀ pe, cacheGet s.blockCache (h - 1) = some pe → pe.hash = block.parentHash) :
    ∃ s', processBlock client s h = Except.ok (s', [])
      ∧ s'.blockCache = s.blockCache := by
  subst hnum
  rw [processBlock, hfetch]
  rcases hp : cacheGet s.blockCache (block.number - 1) with _ | pe
  · simp only [hcached, hhash, hp, ne_eq, not_true_eq_false, if_false, bne_self_eq_false,
      List.nil_append, List.append_nil]
    exact ⟨_, rfl, rfl⟩
  · have hpe := hparent pe hp
    simp only [hcached, hhash, hp, hpe, ne_eq, not_true_eq_false, if_false,
      bne_self_eq_false, List.nil_append, List.append_nil]
    exact ⟨_, rfl, rfl⟩

/-- C2 (amended): on a parent-hash discontinuity the event is emitted under
the type string `PARENT_HASH_MISMATCH_DETECTED` (this variant's name for rule
2), exactly once per call, after any `BLOCK_REPLACED` of the same call and
before any `BLOCK_RECEIVED`, with `at_height = h`, the cached hash at `h−1` as
`expected_parent`, the fetched parent hash as `actual_parent`, and severity
CRITICAL; no `REORG_DETECTED` and no plain `PARENT_HASH_MISMATCH` event is
ever emitted by this call. -/
theorem processBlock_parentMismatch
    (client : Client) (s : MonitorState) (h : Int) (block : Block) (parentE : CacheEntry)
    (hfetch : client.getBlockByNumber h = Except.ok block)
    (hnum : block.number = h)
    (hparent : cacheGet s.blockCache (h - 1) = some parentE)
    (hne : block.parentHash ≠ parentE.hash) :
    ∃ s' pre post,
      processBlock client s h = Except.ok (s', pre ++
        Event.parentHashMismatchDetected h parentE.hash block.parentHash "CRITICAL" :: post)
      ∧ (∀ ev ∈ pre, eventType ev = "BLOCK_REPLACED")
      ∧ (∀ ev ∈ post, eventType ev = "BLOCK_RECEIVED")
      ∧ (pre ++
          Event.parentHashMismatchDetected h parentE.hash block.parentHash "CRITICAL" ::
            post).countP
          (fun ev => eventType ev == "PARENT_HASH_MISMATCH_DETECTED") = 1
      ∧ (∀ ev ∈ pre ++
          Event.parentHashMismatchDetected h parentE.hash block.parentHash "CRITICAL" ::
            post,
          eventType ev ≠ "REORG_DETECTED" ∧ eventType ev ≠ "PARENT_HASH_MISMATCH") := by
  subst hnum
  rcases hc : cacheGet s.blockCache block.number with _ | cached
  · have key : ∃ s', processBlock client s block.number = Except.ok (s',
        [] ++ Event.parentHashMismatchDetected block.number parentE.hash block.parentHash
          "CRITICAL" ::
          [Event.blockReceived block.number block.hash block.parentHash block.stateRoot
            block.txHashes.length block.txHashes]) := by
      rw [processBlock, hfetch]
      simp only [hc, hparent, hne, ne_eq, not_false_eq_true, if_true, if_pos,
        List.nil_append, List.singleton_append]
      exact ⟨_, rfl⟩
    obtain ⟨s', hs'⟩ := key
    refine ⟨s', [], _, hs', by simp, by simp [eventType], ?_, ?_⟩
    · simp [eventType, List.countP_cons]
    · simp [eventType]
  · by_cases hch : cached.hash = block.hash
    · have key : ∃ s', processBlock client s block.number = Except.ok (s',
          [] ++ Event.parentHashMismatchDetected block.number parentE.hash block.parentHash
            "CRITICAL" :: []) := by
        rw [processBlock, hfetch]
        simp only [hc, hch, hparent, hne, ne_eq, not_false_eq_true, if_true, if_pos,
          not_true_eq_false, if_false, bne_self_eq_false, List.nil_append, List.append_nil,
          List.singleton_append]
        exact ⟨_, rfl⟩
      obtain ⟨s', hs'⟩ := key
      refine ⟨s', [], [], hs', by simp, by simp, ?_, ?_⟩
      · simp [eventType, List.countP_cons]
      · simp [eventType]
    · have key : ∃ s', processBlock client s block.number = Except.ok (s',
          [Event.blockReplaced block.number cached.hash block.hash cached.stateRoot
            block.stateRoot
            (cached.transactions.filter (fun tx => ! block.txHashes.contains tx))
            (block.txHashes.filter (fun tx => ! cached.transactions.contains tx))
            "CRITICAL"] ++
          Event.parentHashMismatchDetected block.number parentE.hash block.parentHash
            "CRITICAL" ::
          [Event.blockReceived block.number block.hash block.parentHash block.stateRoot
            block.txHashes.length block.txHashes]) := by
        rw [processBlock, hfetch]
        simp only [hc, hch, hparent, hne, ne_eq, not_false_eq_true, if_true, if_pos,
          bne_iff_ne, List.singleton_append, List.cons_append, List.nil_append]
        exact ⟨_, rfl⟩
      obtain ⟨s', hs'⟩ := key
      refine ⟨s', _, _, hs', by simp [eventType], by simp [eventType], ?_, ?_⟩
      · simp [eventType, List.countP_cons]
      · simp [eventType]

/-- The identity probe touches only `lastMetadataCheckMs`, `lastChainId` and
`lastGenesisHash`: cache, watermark and sync tip are unchanged. -/
theorem metadataPhase_frame (cfg : Config) (client : Client) (nowMs : Int)
    (s : MonitorState) :
    (metadataPhase cfg client nowMs s).1.blockCache = s.blockCache
    ∧ (metadataPhase cfg client nowMs s).1.maxObservedHeight = s.maxObservedHeight
    ∧ (metadataPhase cfg client nowMs s).1.lastProcessedHeight = s.lastProcessedHeight := by
  unfold metadataPhase
  split_ifs
  · rcases client.getChainId with e | cid <;> rcases client.getBlockByNumber 0 with e' | g <;>
      simp
  · simp

/-- C3: on every tick whose identity probe does not throw and whose fetched
latest height is strictly below the max-observed watermark, the rewind phase
emits exactly one `CHAIN_REWIND` event with `from_height` the old watermark,
`to_height` the new tip and severity CRITICAL, sets both `maxObservedHeight`
and `lastProcessedHeight` to the new tip, leaves the block cache exactly as
it was before the rewind check, and the event appears in the tick's emitted
events. -/
theorem tick_chainRewind
    (cfg : Config) (client : Client) (nowMs : Int) (s : MonitorState) (b : Block)
    (hmeta : (metadataPhase cfg client nowMs s).2.2 = none)
    (hlatest : client.getBlockLatest = Except.ok b)
    (hlt : b.number < s.maxObservedHeight) :
    rewindPhase b.number (metadataPhase cfg client nowMs s).1 =
      ({ (metadataPhase cfg client nowMs s).1 with
          maxObservedHeight := b.number, lastProcessedHeight := b.number },
       [Event.chainRewind s.maxObservedHeight b.number "CRITICAL"])
    ∧ (rewindPhase b.number (metadataPhase cfg client nowMs s).1).1.blockCache = s.blockCache
    ∧ Event.chainRewind s.maxObservedHeight b.number "CRITICAL" ∈ (tick cfg client nowMs s).2 := by
  obtain ⟨hfc, hfm, _⟩ := metadataPhase_frame cfg client nowMs s
  have hr : rewindPhase b.number (metadataPhase cfg client nowMs s).1 =
      ({ (metadataPhase cfg client nowMs s).1 with
          maxObservedHeight := b.number, lastProcessedHeight := b.number },
       [Event.chainRewind s.maxObservedHeight b.number "CRITICAL"]) := by
    rw [rewindPhase, if_pos (by rw [hfm]; exact hlt), hfm]
  refine ⟨hr, by rw [hr, hfc], ?_⟩
  rcases hmp : metadataPhase cfg client nowMs s with ⟨s1, evs1, o⟩
  rw [hmp] at hmeta hr
  subst hmeta
  simp only [tick, tickBody, hmp, hlatest, hr]
  simp [List.mem_append]

theorem intRange_eq_cons {lo hi : Int} (h : lo ≤ hi) :
    intRange lo hi = lo :: intRange (lo + 1) hi := by
  unfold intRange
  have hn : (hi + 1 - lo).toNat = (hi + 1 - (lo + 1)).toNat + 1 := by omega
  rw [hn, intRangeAux]

/-- A block fetch that succeeds makes `processBlock` succeed. -/
theorem processBlock_ok {client : Client} {s : MonitorState} {n : Int} {blk : Block}
    (hblk : client.getBlockByNumber n = Except.ok blk) :
    ∃ s1 evs1, processBlock client s n = Except.ok (s1, evs1) := by
  rw [processBlock, hblk]
  exact ⟨_, _, rfl⟩

/-- Break-on-error behavior of the forward-sync loop, by induction on the
distance to the first failing height. -/
theorem forwardSyncGo_break (client : Client) (hi h : Int) (e : String)
    (hfail : client.getBlockByNumber h = Except.error e) :
    ∀ (n : Nat) (lo : Int) (s : MonitorState),
      (h - lo).toNat = n → 0 ≤ lo → lo ≤ h → h ≤ hi →
      s.lastProcessedHeight = lo - 1 →
      (∀ h', lo ≤ h' → h' < h → ∃ blk, client.getBlockByNumber h' = Except.ok blk) →
      (forwardSyncGo client (intRange lo hi) s).1.lastProcessedHeight = h - 1
      ∧ ∃ pre, (forwardSyncGo client (intRange lo hi) s).2 =
          pre ++ [Event.rpcError (some ("Failed to process block " ++ toString h)) e] := by
  intro n
  induction n with
  | zero =>
    intro lo s hn h0 hlo hhi hlp hok
    have : lo = h := by omega
    subst this
    rw [intRange_eq_cons hhi]
    simp only [forwardSyncGo]
    rw [if_neg (by omega), processBlock_error.mpr hfail]
    exact ⟨hlp, [], rfl⟩
  | succ n ih =>
    intro lo s hn h0 hlo hhi hlp hok
    have hlth : lo < h := by omega
    obtain ⟨blk, hblk⟩ := hok lo le_rfl hlth
    obtain ⟨s1, evs1, hpb⟩ := processBlock_ok (s := s) hblk
    rw [intRange_eq_cons (by omega)]
    simp only [forwardSyncGo]
    rw [if_neg (by omega)]
    simp only [hpb]
    have hrec := ih (lo + 1) { s1 with lastProcessedHeight := lo }
      (by omega) (by omega) (by omega) hhi (by simp)
      (fun h' hh1 hh2 => hok h' (by omega) hh2)
    obtain ⟨h1, pre', h2⟩ := hrec
    exact ⟨h1, evs1 ++ pre', by rw [h2, List.append_assoc]⟩

/-- C4: the forward-sync phase of every tick (whose identity probe does not
throw, that fetched latest height `L`, and that did not rewind) iterates the
strictly increasing height range `last_processed_height+1 … L`; if the fetch
fails at height `h` while all earlier heights of the range succeed, the loop
stops with `last_processed_height = h − 1` (it is advanced to a height only
after that height succeeds, and never past the failed height), the last
emitted event of the phase is `RPC_ERROR` with the message naming `h`, and
that event appears among the tick's events — so the next tick retries `h`. -/
theorem tick_forwardSync_breakOnError
    (cfg : Config) (client : Client) (nowMs : Int) (s : MonitorState) (b : Block) (h : Int)
    (e : String)
    (hmeta : (metadataPhase cfg client nowMs s).2.2 = none)
    (hlatest : client.getBlockLatest = Except.ok b)
    (hnorw : s.maxObservedHeight ≤ b.number)
    (h0 : -1 ≤ s.lastProcessedHeight)
    (hlo : s.lastProcessedHeight + 1 ≤ h) (hhi : h ≤ b.number)
    (hfail : client.getBlockByNumber h = Except.error e)
    (hok : ∀ h', s.lastProcessedHeight + 1 ≤ h' → h' < h →
      ∃ blk, client.getBlockByNumber h' = Except.ok blk) :
    List.Chain' (fun a b => a < b) (intRange (s.lastProcessedHeight + 1) b.number)
    ∧ (forwardSyncGo client (intRange (s.lastProcessedHeight + 1) b.number)
        (metadataPhase cfg client nowMs s).1).1.lastProcessedHeight = h - 1
    ∧ (∃ pre, (forwardSyncGo client (intRange (s.lastProcessedHeight + 1) b.number)
        (metadataPhase cfg client nowMs s).1).2 =
        pre ++ [Event.rpcError (some ("Failed to process block " ++ toString h)) e])
    ∧ Event.rpcError (some ("Failed to process block " ++ toString h)) e
        ∈ (tick cfg client nowMs s).2 := by
  obtain ⟨hfc, hfm, hfl⟩ := metadataPhase_frame cfg client nowMs s
  have hbreak := forwardSyncGo_break client b.number h e hfail
    (h - (s.lastProcessedHeight + 1)).toNat (s.lastProcessedHeight + 1)
    (metadataPhase cfg client nowMs s).1
    rfl (by omega) hlo hhi (by rw [hfl]; omega) hok
  obtain ⟨h1, pre, h2⟩ := hbreak
  refine ⟨chain_intRange, h1, ⟨pre, h2⟩, ?_⟩
  have hr : rewindPhase b.number (metadataPhase cfg client nowMs s).1 =
      ((metadataPhase cfg client nowMs s).1, []) := by
    rw [rewindPhase, if_neg (not_lt.mpr (by rw [hfm]; exact hnorw))]
  rcases hmp : metadataPhase cfg client nowMs s with ⟨s1, evs1, o⟩
  rw [hmp] at hmeta hr hfl h2
  subst hmeta
  have hfl' : s1.lastProcessedHeight = s.lastProcessedHeight := hfl
  have h2' : (forwardSyncGo client (intRange (s.lastProcessedHeight + 1) b.number) s1).2 =
      pre ++ [Event.rpcError (some ("Failed to process block " ++ toString h)) e] := h2
  simp only [tick, tickBody, hmp, hlatest, hr, List.mem_append]
  rw [hfl']
  refine Or.inl (Or.inr ?_)
  rw [h2']
  simp

/-- C6 (amended): only the top-level guard of `tick` swallows errors whose
message contains `Block not found` — when the tick body ends with such an
escaping error, the tick emits nothing further (no `RPC_ERROR`).  The
per-height handlers inside forward sync and deep recheck emit `RPC_ERROR`
regardless of the message (see the counterexample). -/
theorem tick_guard_swallows_blockNotFound
    (cfg : Config) (client : Client) (nowMs : Int) (s s1 : MonitorState)
    (evs1 : List Event) (e : String)
    (hbody : tickBody cfg client nowMs s = (s1, evs1, some e))
    (hsub : strHasSub e "Block not found" = true) :
    tick cfg client nowMs s = (s1, evs1) := by
  unfold tick
  rw [hbody]
  simp [hsub]

/-- C10: `tick` returns normally for every behavior of the injected RPC
client and every state: it always produces a state/event pair; when the tick
body ends in an escaping exception the guard turns it into at most one
`RPC_ERROR` event (or nothing for `Block not found`), and when the body
completes the result is passed through unchanged.  No exception propagates to
the caller. -/
theorem tick_total_guard (cfg : Config) (client : Client) (nowMs : Int) (s : MonitorState) :
    (∃ s' evs, tick cfg client nowMs s = (s', evs))
    ∧ (∀ s1 evs1 e, tickBody cfg client nowMs s = (s1, evs1, some e) →
        tick cfg client nowMs s =
          (s1, evs1 ++ (if strHasSub e "Block not found" then []
            else [Event.rpcError none e])))
    ∧ (∀ s1 evs1, tickBody cfg client nowMs s = (s1, evs1, none) →
        tick cfg client nowMs s = (s1, evs1)) := by
  refine ⟨⟨_, _, rfl⟩, ?_, ?_⟩
  · intro s1 evs1 e hb
    unfold tick
    rw [hb]
  · intro s1 evs1 hb
    unfold tick
    rw [hb]

/-- Distinct integer keys all lying in `[lo, hi]` are at most `hi + 1 − lo`
many. -/
theorem keys_card_bound {l : List (Int × CacheEntry)} {lo hi : Int}
    (hnd : (l.map Prod.fst).Nodup)
    (hmem : ∀ p ∈ l, lo ≤ p.1 ∧ p.1 ≤ hi) :
    l.length ≤ (hi + 1 - lo).toNat := by
  have hsub : (l.map Prod.fst).toFinset ⊆ Finset.Icc lo hi := by
    intro x hx
    rw [List.mem_toFinset] at hx
    obtain ⟨p, hp, rfl⟩ := List.mem_map.mp hx
    exact Finset.mem_Icc.mpr (hmem p hp)
  have hcard := Finset.card_le_card hsub
  rw [List.toFinset_card_of_nodup hnd, Int.card_Icc] at hcard
  simpa [List.length_map] using hcard

/-- C7 (amended): after the prune phase of a tick that fetched latest height
`L`, every height remaining in the cache is at least `max 0 (L − CACHE_DEPTH + 1)`;
and whenever no height above `L` remains cached (as in rewind-free runs) and
the cache keys are duplicate-free, the cache also holds at most `CACHE_DEPTH`
entries.  The size bound alone is not unconditional: stale entries above a
rewound tip survive the prune (see the counterexample). -/
theorem tick_prune_bounds
    (cfg : Config) (client : Client) (nowMs : Int) (s : MonitorState) (b : Block)
    (hmeta : (metadataPhase cfg client nowMs s).2.2 = none)
    (hlatest : client.getBlockLatest = Except.ok b) :
    (∀ p ∈ (tick cfg client nowMs s).1.blockCache,
        max 0 (b.number - cfg.cacheDepth + 1) ≤ p.1)
    ∧ (((tick cfg client nowMs s).1.blockCache.map Prod.fst).Nodup →
        (∀ p ∈ (tick cfg client nowMs s).1.blockCache, p.1 ≤ b.number) →
        0 ≤ cfg.cacheDepth →
        ((tick cfg client nowMs s).1.blockCache.length : Int) ≤ cfg.cacheDepth) := by
  have hfloor : ∀ p ∈ (tick cfg client nowMs s).1.blockCache,
      max 0 (b.number - cfg.cacheDepth + 1) ≤ p.1 := by
    rcases hmp : metadataPhase cfg client nowMs s with ⟨s1, evs1, o⟩
    rw [hmp] at hmeta
    subst hmeta
    intro p hp
    simp only [tick, tickBody, hmp, hlatest] at hp
    exact of_decide_eq_true (List.mem_filter.mp hp).2
  refine ⟨hfloor, fun hnd hle hcd => ?_⟩
  have hbound := keys_card_bound hnd
    (fun p hp => ⟨hfloor p hp, hle p hp⟩)
  rcases le_total (b.number - cfg.cacheDepth + 1) 0 with hmx | hmx
  · rw [max_eq_left hmx] at hbound
    omega
  · rw [max_eq_right hmx] at hbound
    omega

end Reorg

namespace Mainnet

/-- The mainnet identity probe leaves `lastProcessedHeight` unchanged. -/
theorem metadataPhase_keepsSyncTip (cfg : Config) (client : Client) (nowMs : Int) (s : MonState) :
    (metadataPhase cfg client nowMs s).1.lastProcessedHeight = s.lastProcessedHeight := by
  unfold metadataPhase
  split_ifs
  · rcases client.getChainId with e | cid <;> rcases client.getBlockByNumber 0 with e' | g <;>
      simp
  · simp

/-- C5: on every tick whose identity probe does not throw, with
`last_processed_height = −1` and fetched latest height `L > 0`, the
cold-start phase emits `MONITOR_SKIP_HISTORY` with `skipped_to_height = L`
and sets `last_processed_height = L − 1` before the forward sync, and the
event appears in the tick's emitted events. -/
theorem tick_skipHistory
    (cfg : Config) (client : Client) (nowMs : Int) (s : MonState) (b : Block)
    (hmeta : (metadataPhase cfg client nowMs s).2.2 = none)
    (hlatest : client.getBlockLatest = Except.ok b)
    (hcold : s.lastProcessedHeight = -1)
    (hpos : 0 < b.number) :
    coldStartPhase b.number (metadataPhase cfg client nowMs s).1 =
      ({ (metadataPhase cfg client nowMs s).1 with lastProcessedHeight := b.number - 1 },
       [Event.monitorSkipHistory b.number])
    ∧ Event.monitorSkipHistory b.number ∈ (tick cfg client nowMs s).2 := by
  have hfl := metadataPhase_keepsSyncTip cfg client nowMs s
  have hc : coldStartPhase b.number (metadataPhase cfg client nowMs s).1 =
      ({ (metadataPhase cfg client nowMs s).1 with lastProcessedHeight := b.number - 1 },
       [Event.monitorSkipHistory b.number]) := by
    rw [coldStartPhase, if_pos ⟨by rw [hfl]; exact hcold, hpos⟩]
  refine ⟨hc, ?_⟩
  rcases hmp : metadataPhase cfg client nowMs s with ⟨s1, evs1, o⟩
  rw [hmp] at hmeta hc
  subst hmeta
  simp only [tick, tickBody, hmp, hlatest, hc]
  simp [List.mem_append]

/-- C9: every hourly report carries the threat assessment derived from the
counters by first match in the specified order (CRITICAL on any rewind, else
HIGH on >5 reorgs or >10 replacements, else MEDIUM on >0 of either, else
LOW); the report is dispatched to the alert sink exactly when the assessment
is not LOW; and the counters are reset to zero with `start_time` set to the
clock value read at reset time. -/
theorem hourlyReport_spec (now1 now2 : Int) (stats : HourlyStats) :
    generateHourlyReport now1 now2 stats =
      (Event.hourlyReport (now1 - stats.startTime) stats (threatAssessmentSpec stats)
        (threatDetails stats),
       threatAssessmentSpec stats != "LOW",
       { startTime := now2, blocksProcessed := 0, reorgsDetected := 0,
         blocksReplaced := 0, chainRewinds := 0 })
    ∧ ((threatAssessmentSpec stats != "LOW") = true ↔ threatAssessmentSpec stats ≠ "LOW") := by
  constructor
  · unfold generateHourlyReport threatAssessmentSpec threatDetails resetHourlyStats
    split_ifs <;> rfl
  · simp [bne_iff_ne]

end Mainnet

/-! ### Witnesses and counterexamples -/

/-- C1 witness: at a concrete replaced block, `processBlock` emits
`BLOCK_REPLACED` first with the filter-based transaction diff. -/
theorem processBlock_blockReplaced_witness :
    ∃ s' rest, Reorg.processBlock clReplaced sReplaced 2 = Except.ok (s',
      Event.blockReplaced 2 "old" "new" "r2" "r2n"
        (fpOldW.transactions.filter (fun tx => ! blkNewW.txHashes.contains tx))
        (blkNewW.txHashes.filter (fun tx => ! fpOldW.transactions.contains tx))
        "CRITICAL" :: rest) := by
  obtain ⟨s', rest, h, _⟩ := Reorg.processBlock_blockReplaced clReplaced sReplaced 2
    blkNewW fpOldW (by decide) (by decide) (by decide) (by decide)
  exact ⟨s', rest, h⟩

/-- C2 counterexample: at a concrete parent-hash discontinuity the emitted
rule-2 event has type string `PARENT_HASH_MISMATCH_DETECTED`; no event of
this call has the type string `PARENT_HASH_MISMATCH` required by the claim. -/
theorem parentMismatch_eventName_cex :
    Reorg.processBlock clMismatch sMismatch 1 = Except.ok
      ({ blockCache := [(0, fpParentW), (1, ⟨"b1", "q", "r1", []⟩)],
         maxObservedHeight := 1, lastProcessedHeight := -1,
         lastChainId := none, lastGenesisHash := none, lastMetadataCheckMs := 0 },
       [Event.parentHashMismatchDetected 1 "p" "q" "CRITICAL",
        Event.blockReceived 1 "b1" "q" "r1" 0 []])
    ∧ (∀ ev ∈ [Event.parentHashMismatchDetected 1 "p" "q" "CRITICAL",
        Event.blockReceived 1 "b1" "q" "r1" 0 []],
        eventType ev ≠ "PARENT_HASH_MISMATCH") := by
  decide

/-- C2 witness (amended claim): the mismatch event is emitted at a concrete
discontinuity. -/
theorem processBlock_parentMismatch_witness :
    ∃ s' pre post, Reorg.processBlock clMismatch sMismatch 1 = Except.ok (s', pre ++
      Event.parentHashMismatchDetected 1 fpParentW.hash blkMismatch.parentHash
        "CRITICAL" :: post) := by
  obtain ⟨s', pre, post, h, _⟩ := Reorg.processBlock_parentMismatch clMismatch sMismatch 1
    blkMismatch fpParentW (by decide) (by decide) (by decide) (by decide)
  exact ⟨s', pre, post, h⟩

/-- C3 witness: a tick that fetches tip 1 with watermark 5 emits
`CHAIN_REWIND 5 1`. -/
theorem tick_chainRewind_witness :
    Event.chainRewind 5 1 "CRITICAL" ∈ (Reorg.tick cfgStd clMismatch 0 sHighWater).2 := by
  have h := Reorg.tick_chainRewind cfgStd clMismatch 0 sHighWater blkMismatch
    (by decide) (by decide) (by decide)
  exact h.2.2

/-- C4 witness: with heights 0 and 1 healthy and height 2 failing, the tick
emits `RPC_ERROR` naming height 2. -/
theorem tick_forwardSync_breakOnError_witness :
    Event.rpcError (some ("Failed to process block " ++ toString (2 : Int))) "boom"
      ∈ (Reorg.tick cfgStd clBrk 0 Reorg.initState).2 := by
  have h := Reorg.tick_forwardSync_breakOnError cfgStd clBrk 0 Reorg.initState chainB3 2
    "boom" (by decide) (by decide) (by decide) (by decide) (by decide) (by decide)
    (by decide)
    (by
      intro h' h1 h2
      have h1' : (0 : Int) ≤ h' := by simpa [Reorg.initState] using h1
      have hcase : h' = 0 ∨ h' = 1 := by omega
      rcases hcase with rfl | rfl
      · exact ⟨chainB0, rfl⟩
      · exact ⟨chainB1, rfl⟩)
  exact h.2.2.2

/-- C6 counterexample: a `Block not found` error raised by a per-height fetch
inside forward sync is emitted as an `RPC_ERROR` whose error field is the
string `Block not found` — it is not swallowed there. -/
theorem rpcError_blockNotFound_cex :
    (Reorg.tick cfgStd clBnf 0 Reorg.initState).2 =
      [Event.rpcError (some "Failed to process block 0") "Block not found"]
    ∧ strHasSub "Block not found" "Block not found" = true := by
  decide

/-- C6 witness (amended claim): a `Block not found` error escaping to the
top-level guard (here from the tip fetch) is swallowed with no event. -/
theorem tick_guard_swallows_blockNotFound_witness :
    Reorg.tick cfgStd clLatBnf 0 Reorg.initState = (Reorg.initState, []) := by
  exact Reorg.tick_guard_swallows_blockNotFound cfgStd clLatBnf 0 Reorg.initState
    Reorg.initState [] "Block not found" (by decide) (by decide)

/-- C7 counterexample: after a rewind tick under `CACHE_DEPTH = 2` the cache
holds 3 entries — the claimed size bound `|cache| ≤ CACHE_DEPTH` fails. -/
theorem cacheSize_bound_cex :
    cfgTiny.cacheDepth = 2
    ∧ (Reorg.tick cfgTiny clRewound 0
        (Reorg.tick cfgTiny clChain 0 Reorg.initState).1).1.blockCache.length = 3
    ∧ ¬ (((Reorg.tick cfgTiny clRewound 0
        (Reorg.tick cfgTiny clChain 0 Reorg.initState).1).1.blockCache.length : Int)
          ≤ cfgTiny.cacheDepth) := by
  decide

/-- C7 witness (amended claim): on a healthy tick both the floor bound and
the size bound hold. -/
theorem tick_prune_bounds_witness :
    (∀ p ∈ (Reorg.tick cfgTiny clChain 0 Reorg.initState).1.blockCache,
        max 0 (chainB3.number - cfgTiny.cacheDepth + 1) ≤ p.1)
    ∧ ((Reorg.tick cfgTiny clChain 0 Reorg.initState).1.blockCache.length : Int)
        ≤ cfgTiny.cacheDepth := by
  have h := Reorg.tick_prune_bounds cfgTiny clChain 0 Reorg.initState chainB3
    (by decide) (by decide)
  exact ⟨h.1, h.2 (by decide) (by decide) (by decide)⟩

/-- C8 witness: re-processing a cached, unchanged block emits nothing and
leaves the cache unchanged. -/
theorem processBlock_idempotent_witness :
    ∃ s', Reorg.processBlock clChain sCachedChain 1 = Except.ok (s', [])
      ∧ s'.blockCache = sCachedChain.blockCache := by
  exact Reorg.processBlock_idempotent clChain sCachedChain 1 chainB1
    ⟨"a1", "a0", "r1", []⟩ (by decide) (by decide) (by decide) (by decide)
    (by
      intro pe hpe
      have h2 := Option.some.inj hpe
      rw [← h2]
      rfl)

/-- C10 witness: a client whose tip fetch throws a generic error still lets
`tick` return normally, emitting a single `RPC_ERROR`. -/
theorem tick_total_guard_witness :
    Reorg.tick cfgStd clBoom 0 Reorg.initState =
      (Reorg.initState, [Event.rpcError none "boom"]) := by
  have h := (Reorg.tick_total_guard cfgStd clBoom 0 Reorg.initState).2.1
    Reorg.initState [] "boom" (by decide)
  rw [h]
  decide

/-- C5 witness: a cold-start tick at tip 3 emits `MONITOR_SKIP_HISTORY 3`. -/
theorem tick_skipHistory_witness :
    Event.monitorSkipHistory 3 ∈ (Mainnet.tick cfgStd clChain 0 (Mainnet.initState 0)).2 := by
  have h := Mainnet.tick_skipHistory cfgStd clChain 0 (Mainnet.initState 0) chainB3
    (by decide) (by decide) (by decide) (by decide)
  exact h.2
